import Mathlib

/-!
Shallow embedding of the axon repository fragment:
* the record/playback `Log` of `src/unnamed/part_001` (a `define`d module:
  `Log`, its `replacer`/`reviver` JSON hooks, `registerProperty`, `clear`,
  and `stepUntil`), and
* the `NumberPropertyIO` adapter of `src/js/NumberPropertyIO.js`
  (embedded here under the namespace `NumberPropertyIOModel`).

JavaScript values are modelled by the inductive `JsValue`: `null`,
`undefined`, booleans, numbers (as `Int`; no claim exercises non-integer
numbers), strings, and objects.  An object carries an optional identity tag
(`some h` for a pre-existing heap object, `none` for an object freshly
allocated by the JSON machinery — `JSON.parse` always builds fresh objects,
so reference identity with a live object can only hold through the reviver's
registry lookup), its constructor name (used by the replacer's
`value.constructor.name === 'Vector2'` test) and an association list of
fields.
-/

namespace Axon

inductive JsValue : Type where
  | null : JsValue
  | undefined : JsValue
  | bool : Bool → JsValue
  | num : Int → JsValue
  | str : String → JsValue
  | obj : Option Nat → String → List (String × JsValue) → JsValue
  deriving Repr

mutual

/-- Structural equality test on the value model (used for the `==` tests of
the source, all of which compare against string literals, where JS `===`
is plain string equality). -/
def beqVal : JsValue → JsValue → Bool
  | .null, .null => true
  | .undefined, .undefined => true
  | .bool a, .bool b => a == b
  | .num a, .num b => a == b
  | .str a, .str b => a == b
  | .obj i c fs, .obj i' c' fs' => i == i' && c == c' && beqFields fs fs'
  | _, _ => false

def beqFields : List (String × JsValue) → List (String × JsValue) → Bool
  | [], [] => true
  | (k, x) :: r, (k', x') :: r' => k == k' && beqVal x x' && beqFields r r'
  | _, _ => false

end

instance : BEq JsValue := ⟨beqVal⟩

/-- JavaScript truthiness: `null`, `undefined`, `false`, `0` and `""` are
falsy; every object is truthy.  (NaN does not arise: numbers are `Int`.) -/
def truthy : JsValue → Bool
  | .null => false
  | .undefined => false
  | .bool b => b
  | .num n => n != 0
  | .str s => s != ""
  | .obj _ _ _ => true

/-- First binding of a key in an association list, JS member read:
missing keys read as `undefined`. -/
def getFieldList : List (String × JsValue) → String → JsValue
  | [], _ => .undefined
  | (k, v) :: rest, key => if k = key then v else getFieldList rest key

/-- JS member read `v[key]`.  On primitives the (autoboxed) read yields
`undefined` for the keys used in this code base; reads on `null`/`undefined`
would throw but every read in the source is guarded by a truthiness check. -/
def getField : JsValue → String → JsValue
  | .obj _ _ fs, key => getFieldList fs key
  | _, _ => .undefined

/-- Overwrite the first binding of a key, or append a new binding. -/
def setFieldList : List (String × JsValue) → String → JsValue → List (String × JsValue)
  | [], key, v => [(key, v)]
  | (k, w) :: rest, key, v =>
    if k = key then (key, v) :: rest else (k, w) :: setFieldList rest key v

/-- JS member write `v[key] = x` on an object.  (On a primitive a strict-mode
write throws; the call sites that can hit a non-object go through
`Except`-returning wrappers below.) -/
def setField : JsValue → String → JsValue → JsValue
  | .obj i c fs, key, v => .obj i c (setFieldList fs key v)
  | w, _, _ => w

def isObj : JsValue → Bool
  | .obj _ _ _ => true
  | _ => false

def isUndefined : JsValue → Bool
  | .undefined => true
  | _ => false

/-- `value.constructor.name` for the values that can reach the replacer's
second test (truthy values; primitives autobox). -/
def ctorName : JsValue → String
  | .bool _ => "Boolean"
  | .num _ => "Number"
  | .str _ => "String"
  | .obj _ c _ => c
  | _ => ""

/-- The recorder's JSON replacer, from source (part_001 lines 76-88):
a truthy value with a truthy `cid` field is encoded as the typed reference
`{jsonClass: 'Property', cid: value.cid}`; a value constructed by `Vector2`
as `{x: value.x, y: value.y, jsonClass: 'Vector2'}`; anything else passes
through. -/
def replacer (_key : String) (value : JsValue) : JsValue :=
  if truthy value && truthy (getField value "cid") then
    .obj none "Object" [("jsonClass", .str "Property"), ("cid", getField value "cid")]
  else if truthy value && (ctorName value == "Vector2") then
    .obj none "Object"
      [("x", getField value "x"), ("y", getField value "y"), ("jsonClass", .str "Vector2")]
  else
    value

/-- JS array read `properties[v]` where `v` is the decoded `cid`: a numeric
index inside bounds yields the element, anything else `undefined`. -/
def lookupByCid (properties : List JsValue) : JsValue → JsValue
  | .num n => if n < 0 then .undefined else (properties[n.toNat]?).getD .undefined
  | _ => .undefined

/-- The recorder's JSON reviver, from source (part_001 lines 90-99): a value
whose `jsonClass` is `'Property'` is replaced by the live registry entry
`log.properties[value.cid]`; a `'Vector2'` payload becomes a fresh plain
`{x, y}` object; anything else passes through. -/
def reviver (properties : List JsValue) (_key : String) (value : JsValue) : JsValue :=
  if truthy value && truthy (getField value "jsonClass")
      && (getField value "jsonClass" == .str "Property") then
    lookupByCid properties (getField value "cid")
  else if truthy value && truthy (getField value "jsonClass")
      && (getField value "jsonClass" == .str "Vector2") then
    .obj none "Object" [("x", getField value "x"), ("y", getField value "y")]
  else
    value

/-- `JSON.stringify(v, r)` modelled at the tree level.  Text serialization is
injective on JSON trees, so the composition with `JSON.parse` is modelled as
a tree transformation: the replacer is applied top-down (key `""` at the
root, then each member key), members whose serialization is `undefined` are
omitted, object identity and constructor names are erased (the parse side
rebuilds fresh plain objects), and a top-level `undefined` makes the whole
serialization `undefined` (`none`).  `fuel` bounds the recursion depth: with
an adversarial replacer `JSON.stringify` itself diverges, which the model
renders as running out of fuel. -/
def serializeVal (r : String → JsValue → JsValue) : Nat → String → JsValue → Option JsValue
  | 0, _, _ => none
  | fuel + 1, key, v =>
    match r key v with
    | .undefined => none
    | .obj _ _ fs =>
      some (.obj none "Object"
        (fs.foldr (fun kx acc =>
          match serializeVal r fuel kx.1 kx.2 with
          | none => acc
          | some y => (kx.1, y) :: acc) []))
    | w => some w

mutual

/-- `JSON.parse(_, rv)`'s reviver pass modelled on the already-built tree:
members are revived bottom-up (a member revived to `undefined` is deleted),
then the reviver is applied to the node itself; the root is revived with
key `""`. -/
def internalize (rv : String → JsValue → JsValue) (key : String) : JsValue → JsValue
  | .obj i c fs => rv key (.obj i c (internalizeFields rv fs))
  | v => rv key v

def internalizeFields (rv : String → JsValue → JsValue) :
    List (String × JsValue) → List (String × JsValue)
  | [] => []
  | (k, x) :: rest =>
    let y := internalize rv k x
    if isUndefined y then internalizeFields rv rest
    else (k, y) :: internalizeFields rv rest

end

/-- `JSON.parse(JSON.stringify(v, replacer), reviver)` over a fixed registry
state, at the tree level. -/
def jsonRoundTrip (properties : List JsValue) (fuel : Nat) (v : JsValue) : Option JsValue :=
  (serializeVal replacer fuel "" v).map (internalize (reviver properties) "")

/-- A log entry, per the wire format of the module: a JS object whose fields
other than `time` may be absent (`none`).  The recorder writes `time`,
`type`, `index`, `action` and `value`; the replayer reads `time`, `cid`,
`action`, `value`, `event` and `collectionCid`.  The `value` field holds a
JSON string in the source; it is modelled as the string's parse tree
(`none` when `JSON.stringify` produced `undefined` and the field is
absent). -/
structure LogEntryRec where
  time : Int
  type : Option String := none
  index : Option Nat := none
  cid : Option Int := none
  action : Option String := none
  value : Option JsValue := none
  event : Option JsValue := none
  collectionCid : Option Int := none
  deriving Repr

/-- A thrown JS exception (the only kind these code paths can raise is a
`TypeError` from member access on `undefined` or on a primitive). -/
inductive JsErr : Type where
  | typeError : String → JsErr
  deriving Repr, DecidableEq

/-- The recorder/replayer state, from the `Log` constructor (part_001 lines
59-100): the enabled flag, the three registries, and the entry log.
`collection` (singular) is the field freshly created by the misspelled
assignment in `clear()`; it starts absent and nothing else reads it.
`diagnostics` models the `console.log` output, `triggered` models the
external `property.trigger(event)` calls made during replay, and `sortFn`
is the external collection comparator (Modelled from the spec: the
observable-collection capability `sort` re-sorts by a comparator supplied by
the external framework). -/
structure Log where
  enabled : Bool
  properties : List JsValue := []
  collections : List (List JsValue) := []
  propertySets : List JsValue := []
  entries : List LogEntryRec := []
  collection : Option (List (List JsValue)) := none
  diagnostics : List (String × Nat) := []
  triggered : List (Nat × Option JsValue) := []
  sortFn : List JsValue → List JsValue := id

/-- `registerProperty` (part_001 lines 109-123): a no-op when disabled;
otherwise the property is appended to the registry at index
`properties.length` and a lazy change listener is attached (the listener's
body is `recordEntry` below). -/
def registerProperty (s : Log) (property : JsValue) : Log :=
  if !s.enabled then s
  else { s with properties := s.properties ++ [property] }

/-- The body of the lazy listener attached by `registerProperty` (part_001
lines 118-122): push `{time, type: 'property', index, action: 'change',
value: JSON.stringify(value, log.replacer)}` onto the entry log.  `now`
stands for `Date.now()` and `fuel` is the serializer's recursion budget. -/
def recordEntry (s : Log) (index : Nat) (now : Int) (fuel : Nat) (value : JsValue) : Log :=
  { s with entries := s.entries ++
      [{ time := now, type := some "property", index := some index,
         action := some "change", value := serializeVal replacer fuel "" value }] }

/-- Modelled from the spec: the external `Property` value setter (outside
src/) stores the new value and notifies lazily-linked listeners of the
change; for a property registered while recording was enabled the listener
is the one attached by `registerProperty`, whose body is `recordEntry`. -/
def changeProperty (s : Log) (i : Nat) (now : Int) (fuel : Nat) (v : JsValue) : Log :=
  let s' := { s with
    properties := s.properties.set i (setField ((s.properties[i]?).getD .undefined) "value" v) }
  recordEntry s' i now fuel v

/-- `clear` (part_001 lines 124-128), verbatim: `this.properties = [];
this.collection = []; this.propertySets = [];` — note the misspelled
`collection` (the `collections` registry and the `entries` log are left
untouched). -/
def clear (s : Log) : Log :=
  { s with properties := [], collection := some [], propertySets := [] }

/-- JS array subscript with an optional numeric index: `arr[i]` resolves to
a position only when `i` is present, non-negative and in bounds (otherwise
the read yields `undefined`). -/
def resolveIdx (len : Nat) : Option Int → Option Nat
  | some n => if 0 ≤ n ∧ n.toNat < len then some n.toNat else none
  | none => none

/-- Strict-mode member write `target.value = x` where `target` is
`properties[cid]`: a `TypeError` when the subscript resolved to nothing
(`undefined.value = x`) or to a primitive. -/
def setPropValueAt (properties : List JsValue) (cid : Option Int) (x : JsValue) :
    Except JsErr (List JsValue) :=
  match resolveIdx properties.length cid with
  | none => .error (.typeError "cannot set properties of undefined")
  | some j =>
    match (properties[j]?).getD .undefined with
    | .obj i c fs => .ok (properties.set j (.obj i c (setFieldList fs "value" x)))
    | _ => .error (.typeError "cannot set properties of a primitive")

/-- Remove the first occurrence of a member from a collection (Modelled from
the spec: the observable collection's `remove` takes the property out of the
collection). -/
def removeFirst (member : JsValue) : List JsValue → List JsValue
  | [] => []
  | x :: rest => if beqVal x member then rest else x :: removeFirst member rest

/-- The body of `stepUntil`'s loop for one entry already known to satisfy
`time <= playbackTime` (part_001 lines 136-163): dispatch on
`entry.action`.  A `change` assigns `JSON.parse(entry.value, reviver)` to
`properties[entry.cid].value` when `entry.value` is truthy and otherwise
logs `'missing value for index: '` with the loop index; `trigger` invokes
the property's trigger (modelled as a trace to external code); `add`,
`remove`, `reset` and `sort` act on `collections[entry.collectionCid]`
(their effects modelled from the spec, as the collection class is outside
src/); any other action falls through every branch and changes nothing. -/
def applyEntry (s : Log) (logIndex : Nat) (entry : LogEntryRec) : Except JsErr Log :=
  if entry.action = some "change" then
    match entry.value with
    | some tv =>
      match setPropValueAt s.properties entry.cid (internalize (reviver s.properties) "" tv) with
      | .ok ps => .ok { s with properties := ps }
      | .error e => .error e
    | none =>
      .ok { s with diagnostics := s.diagnostics ++ [("missing value for index: ", logIndex)] }
  else if entry.action = some "trigger" then
    match resolveIdx s.properties.length entry.cid with
    | none => .error (.typeError "cannot call trigger of undefined")
    | some j => .ok { s with triggered := s.triggered ++ [(j, entry.event)] }
  else if entry.action = some "add" then
    match resolveIdx s.collections.length entry.collectionCid with
    | none => .error (.typeError "cannot call add of undefined")
    | some j =>
      let member := match resolveIdx s.properties.length entry.cid with
        | none => .undefined
        | some k => (s.properties[k]?).getD .undefined
      .ok { s with collections :=
        s.collections.set j (((s.collections[j]?).getD []) ++ [member]) }
  else if entry.action = some "remove" then
    match resolveIdx s.collections.length entry.collectionCid with
    | none => .error (.typeError "cannot call remove of undefined")
    | some j =>
      let member := match resolveIdx s.properties.length entry.cid with
        | none => .undefined
        | some k => (s.properties[k]?).getD .undefined
      .ok { s with collections :=
        s.collections.set j (removeFirst member ((s.collections[j]?).getD [])) }
  else if entry.action = some "reset" then
    match resolveIdx s.collections.length entry.collectionCid with
    | none => .error (.typeError "cannot call reset of undefined")
    | some j => .ok { s with collections := s.collections.set j [] }
  else if entry.action = some "sort" then
    match resolveIdx s.collections.length entry.collectionCid with
    | none => .error (.typeError "cannot call sort of undefined")
    | some j =>
      .ok { s with collections := s.collections.set j (s.sortFn ((s.collections[j]?).getD [])) }
  else
    .ok s

/-- `stepUntil` (part_001 lines 129-171): scan forward from `logIndex`
while in bounds; an entry with `time <= playbackTime` is applied (a thrown
`TypeError` propagates) and the index advances; the first entry with a
later time breaks the loop; the final index is returned. -/
def stepUntil (s : Log) (logArray : List LogEntryRec) (playbackTime : Int) (logIndex : Nat) :
    Except JsErr (Log × Nat) :=
  match h : logArray[logIndex]? with
  | none => .ok (s, logIndex)
  | some entry =>
    if entry.time ≤ playbackTime then
      match applyEntry s logIndex entry with
      | .ok s' => stepUntil s' logArray playbackTime (logIndex + 1)
      | .error e => .error e
    else
      .ok (s, logIndex)
termination_by logArray.length - logIndex
decreasing_by
  have hlt : logIndex < logArray.length := by
    by_contra hge
    rw [List.getElem?_eq_none (Nat.le_of_not_lt hge)] at h
    cases h
  omega

namespace NumberPropertyIOModel

/-- `NumberPropertyIO.fromStateObject` (src/js/NumberPropertyIO.js lines
241-247): obtain the parent adapter's decoded object and overwrite its
`valueType`, `units` and `range` with the state object's.  The parent
`PropertyIO(NumberIO)` adapter lives outside src/, so it is an explicit
function parameter here. -/
def fromStateObject (parentFrom : JsValue → JsValue) (stateObject : JsValue) : JsValue :=
  let fromParentStateObject := parentFrom stateObject
  let f1 := setField fromParentStateObject "valueType" (getField stateObject "valueType")
  let f2 := setField f1 "units" (getField stateObject "units")
  setField f2 "range" (getField stateObject "range")

/-- `NumberPropertyIO.toStateObject` (src/js/NumberPropertyIO.js lines
254-262): obtain the parent adapter's state object and overwrite its
`valueType`, `units` and `range` with the number property's. -/
def toStateObject (parentTo : JsValue → JsValue) (numberProperty : JsValue) : JsValue :=
  let parentStateObject := parentTo numberProperty
  let p1 := setField parentStateObject "valueType" (getField numberProperty "valueType")
  let p2 := setField p1 "units" (getField numberProperty "units")
  setField p2 "range" (getField numberProperty "range")

end NumberPropertyIOModel

/-! ### Helper lemmas about the value model -/

theorem getFieldList_setFieldList_same (fs : List (String × JsValue)) (k : String) (x : JsValue) :
    getFieldList (setFieldList fs k x) k = x := by
  induction fs with
  | nil => simp [setFieldList, getFieldList]
  | cons kv rest ih =>
    obtain ⟨k', v'⟩ := kv
    by_cases h : k' = k
    · simp [setFieldList, getFieldList, h]
    · simp [setFieldList, getFieldList, h, ih]

theorem getFieldList_setFieldList_ne (fs : List (String × JsValue)) (k k' : String) (x : JsValue)
    (h : k' ≠ k) : getFieldList (setFieldList fs k x) k' = getFieldList fs k' := by
  have hne : k ≠ k' := fun hh => h hh.symm
  induction fs with
  | nil => simp [setFieldList, getFieldList, hne]
  | cons kv rest ih =>
    obtain ⟨k0, v0⟩ := kv
    by_cases h0 : k0 = k
    · subst h0
      simp [setFieldList, getFieldList, hne]
    · simp only [setFieldList, if_neg h0]
      by_cases h1 : k0 = k'
      · simp [getFieldList, h1]
      · simp [getFieldList, h1, ih]

theorem getField_setField_same (v : JsValue) (k : String) (x : JsValue) (h : isObj v = true) :
    getField (setField v k x) k = x := by
  cases v <;> simp_all [isObj, setField, getField, getFieldList_setFieldList_same]

theorem getField_setField_ne (v : JsValue) (k k' : String) (x : JsValue) (h : k' ≠ k) :
    getField (setField v k x) k' = getField v k' := by
  cases v <;> simp_all [setField, getField, getFieldList_setFieldList_ne]

theorem isObj_setField (v : JsValue) (k : String) (x : JsValue) :
    isObj (setField v k x) = isObj v := by
  cases v <;> rfl

mutual

theorem beqVal_refl : (a : JsValue) → beqVal a a = true
  | .null => rfl
  | .undefined => rfl
  | .bool b => by simp [beqVal]
  | .num n => by simp [beqVal]
  | .str s => by simp [beqVal]
  | .obj i c fs => by simp [beqVal, beqFields_refl fs]

theorem beqFields_refl : (l : List (String × JsValue)) → beqFields l l = true
  | [] => rfl
  | (k, x) :: r => by simp [beqFields, beqVal_refl x, beqFields_refl r]

end

theorem ne_of_beqVal_false {a b : JsValue} (h : beqVal a b = false) : a ≠ b := by
  intro he
  subst he
  rw [beqVal_refl a] at h
  cases h

/-! ### Characterizing the replay loop -/

/-- Apply the loop body of `stepUntil` to a list of entries in order,
threading the loop index. -/
def runFrom : Log → Nat → List LogEntryRec → Except JsErr Log
  | s, _, [] => .ok s
  | s, i, e :: es =>
    match applyEntry s i e with
    | .ok s' => runFrom s' (i + 1) es
    | .error err => .error err

/-- The window of entries that `stepUntil` scans when started at cursor `c`
with target time `t`: the maximal run of consecutive entries from position
`c` whose time is at most `t`. -/
def window (la : List LogEntryRec) (t : Int) (c : Nat) : List LogEntryRec :=
  (la.drop c).takeWhile (fun e => decide (e.time ≤ t))

/-- Every position inside the `takeWhile` prefix satisfies the predicate. -/
theorem takeWhile_getElem_true {α : Type} (p : α → Bool) :
    ∀ (l : List α) (j : Nat) (h : j < l.length),
      j < (l.takeWhile p).length → p (l.get ⟨j, h⟩) = true := by
  intro l
  induction l with
  | nil => intro j h hj; exact absurd h (by simp)
  | cons a as ih =>
    intro j h hj
    rw [List.takeWhile_cons] at hj
    by_cases hp : p a = true
    · cases j with
      | zero => simpa using hp
      | succ j' =>
        simp only [hp, if_true, List.length_cons] at hj
        exact ih j' (by simpa using h) (by omega)
    · simp [hp] at hj

/-- Dropping the `takeWhile` prefix leaves a list whose own `takeWhile`
run is empty: the scan cannot resume past its stopping point. -/
theorem takeWhile_drop_length {α : Type} (p : α → Bool) :
    ∀ l : List α, (l.drop (l.takeWhile p).length).takeWhile p = [] := by
  intro l
  induction l with
  | nil => rfl
  | cons a as ih =>
    rw [List.takeWhile_cons]
    by_cases hp : p a = true
    · simpa [hp] using ih
    · simp [hp, List.takeWhile_cons]

/-- Restarting the scan right after a window yields an empty window. -/
theorem window_after (la : List LogEntryRec) (t : Int) (c : Nat) :
    window la t (c + (window la t c).length) = [] := by
  show (la.drop (c + (window la t c).length)).takeWhile (fun e => decide (e.time ≤ t)) = []
  rw [← List.drop_drop (window la t c).length c la]
  exact takeWhile_drop_length _ (la.drop c)

/-- The entry at the first position past a window (when it exists) has a
time later than the target. -/
theorem window_stop (la : List LogEntryRec) (t : Int) (c : Nat)
    (h : c + (window la t c).length < la.length) :
    ¬ (la.get ⟨c + (window la t c).length, h⟩).time ≤ t := by
  intro hp
  have hafter := window_after la t c
  have hafter' : (la.drop (c + (window la t c).length)).takeWhile
      (fun e => decide (e.time ≤ t)) = [] := hafter
  rw [List.drop_eq_getElem_cons h, List.takeWhile_cons] at hafter'
  simp only [List.get_eq_getElem] at hp
  rw [if_pos (decide_eq_true hp)] at hafter'
  cases hafter'

/-- `stepUntil` started at `c` runs the loop body over exactly the window
of consecutive entries from `c` with time at most the target, and (when no
entry throws) returns the cursor advanced past that window. -/
theorem stepUntil_eq_runFrom (la : List LogEntryRec) (t : Int) :
    ∀ (n : Nat) (s : Log) (c : Nat), la.length - c ≤ n →
      stepUntil s la t c =
        match runFrom s c (window la t c) with
        | .ok s' => .ok (s', c + (window la t c).length)
        | .error e => .error e := by
  intro n
  induction n with
  | zero =>
    intro s c hc
    have hlen : la.length ≤ c := by omega
    have hw : window la t c = [] := by
      unfold window
      rw [List.drop_eq_nil_of_le hlen]
      rfl
    rw [stepUntil, hw]
    split
    · rfl
    · rename_i entry heq
      rw [List.getElem?_eq_none hlen] at heq
      cases heq
  | succ n ih =>
    intro s c hc
    rw [stepUntil]
    split
    · rename_i heq
      have hlen : la.length ≤ c := by
        by_contra hlt
        rw [List.getElem?_eq_getElem (Nat.lt_of_not_le hlt)] at heq
        cases heq
      have hw : window la t c = [] := by
        unfold window
        rw [List.drop_eq_nil_of_le hlen]
        rfl
      rw [hw]
      rfl
    · rename_i e heq
      obtain ⟨hclt, hgetc⟩ := List.getElem?_eq_some.mp heq
      have hdrop : la.drop c = e :: la.drop (c + 1) := by
        rw [List.drop_eq_getElem_cons hclt, hgetc]
      by_cases ht : e.time ≤ t
      · have hw : window la t c = e :: window la t (c + 1) := by
          unfold window
          rw [hdrop, List.takeWhile_cons]
          simp [ht]
        rw [hw]
        simp only [ht, if_true, runFrom]
        cases happ : applyEntry s c e with
        | ok s' =>
          dsimp only
          rw [ih s' (c + 1) (by omega)]
          cases hr : runFrom s' (c + 1) (window la t (c + 1)) with
          | ok s'' =>
            dsimp only
            simp only [List.length_cons]
            congr 2
            omega
          | error err => rfl
        | error err => rfl
      · have hw : window la t c = [] := by
          unfold window
          rw [hdrop, List.takeWhile_cons]
          simp [ht]
        rw [hw]
        simp [ht, runFrom]

theorem applyEntry_preserves_entries {s : Log} {i : Nat} {e : LogEntryRec} {s' : Log}
    (h : applyEntry s i e = .ok s') : s'.entries = s.entries := by
  unfold applyEntry at h
  repeat' split at h
  all_goals cases h
  all_goals rfl

theorem runFrom_preserves_entries :
    ∀ (es : List LogEntryRec) (s : Log) (i : Nat) (s' : Log),
      runFrom s i es = .ok s' → s'.entries = s.entries := by
  intro es
  induction es with
  | nil =>
    intro s i s' h
    injection h with h'
    subst h'
    rfl
  | cons e rest ih =>
    intro s i s' h
    unfold runFrom at h
    cases happ : applyEntry s i e with
    | ok s1 =>
      rw [happ] at h
      exact (ih s1 (i + 1) s' h).trans (applyEntry_preserves_entries happ)
    | error err =>
      rw [happ] at h
      cases h

/-! ### Concrete fixtures -/

/-- A live property object holding value `1` (the heap tag `10` marks it as
a pre-existing object distinct from anything the JSON machinery builds). -/
def propP : JsValue := .obj (some 10) "Property" [("value", .num 1)]

/-- A recorder with recording enabled and nothing registered yet. -/
def logState0 : Log := { enabled := true }

def logState1 : Log := registerProperty logState0 propP

def logState2 : Log := changeProperty logState1 0 10 4 (.num 2)

def logState3 : Log := changeProperty logState2 0 20 4 (.num 3)

/-- A recorder holding one registered property, used to replay hand-written
logs that carry the `cid` field the replayer reads. -/
def regState : Log := { enabled := true, properties := [propP] }

/-- A two-entry change log in the replayer's own field convention
(`cid` present). -/
def cidLog : List LogEntryRec :=
  [{ time := 10, action := some "change", cid := some 0, value := some (.num 2) },
   { time := 20, action := some "change", cid := some 0, value := some (.num 3) }]

def regStateAfter : Log :=
  { enabled := true, properties := [.obj (some 10) "Property" [("value", .num 3)]] }

/-! ### Claims -/

/-- C3: for every log ordered non-decreasingly by time, every target time,
and every cursor index, `stepUntil` applies exactly the entries from the
cursor onward whose time is at most the target (the `runFrom` fold over the
window), stops at the first entry with a later time or at the end of the
log, and returns the index of the first unapplied entry.  The hypothesis
`hok` is the spec's stated input assumption that every id an applied entry
references exists (otherwise the replay throws instead of returning). -/
theorem stepUntil_applies_window (s : Log) (la : List LogEntryRec) (t : Int) (c : Nat) (s' : Log)
    (hsort : la.Pairwise (fun a b => a.time ≤ b.time))
    (hok : runFrom s c (window la t c) = .ok s') :
    stepUntil s la t c = .ok (s', c + (window la t c).length) ∧
    ∀ (i : Nat) (hi : i < la.length), c ≤ i →
      ((la.get ⟨i, hi⟩).time ≤ t ↔ i < c + (window la t c).length) := by
  constructor
  · rw [stepUntil_eq_runFrom la t la.length s c (by omega), hok]
  · intro i hi hci
    simp only [List.get_eq_getElem]
    constructor
    · intro hti
      by_contra hge
      push_neg at hge
      have hklt : c + (window la t c).length < la.length := by omega
      have hstop := window_stop la t c hklt
      simp only [List.get_eq_getElem] at hstop
      rcases Nat.eq_or_lt_of_le hge with heq | hlt
      · subst heq
        exact hstop hti
      · have hmono := List.pairwise_iff_getElem.mp hsort (c + (window la t c).length) i hklt hi hlt
        exact hstop (le_trans hmono hti)
    · intro hlt
      have hk_le : (window la t c).length ≤ (la.drop c).length :=
        (List.takeWhile_prefix (l := la.drop c) (fun e => decide (e.time ≤ t))).length_le
      have hj : i - c < (window la t c).length := by omega
      have hjd : i - c < (la.drop c).length := by omega
      have hp := takeWhile_getElem_true (fun e => decide (e.time ≤ t)) (la.drop c) (i - c) hjd hj
      simp only [List.get_eq_getElem, List.getElem_drop] at hp
      have hci' : c + (i - c) = i := by omega
      simp only [hci'] at hp
      exact of_decide_eq_true hp

/-- C3 witness: replaying the well-formed two-entry change log over a
one-property registry applies both entries and returns cursor 2. -/
theorem stepUntil_applies_window_witness :
    stepUntil regState cidLog 25 0 = .ok (regStateAfter, 0 + (window cidLog 25 0).length) :=
  (stepUntil_applies_window regState cidLog 25 0 regStateAfter (by decide) (by rfl)).1

/-- C4: replaying entries never re-triggers recording: whatever log
`stepUntil` is run over and whatever it applies, the recorder's `entries`
log is unchanged in the returned state (the replay-side value assignment
bypasses change notification — the `Property` setter itself is outside
src/ and is modelled per the spec's requirement). -/
theorem stepUntil_preserves_entries (s : Log) (la : List LogEntryRec) (t : Int) (c : Nat)
    (s' : Log) (c' : Nat) (h : stepUntil s la t c = .ok (s', c')) : s'.entries = s.entries := by
  rw [stepUntil_eq_runFrom la t la.length s c (by omega)] at h
  cases hr : runFrom s c (window la t c) with
  | ok s1 =>
    rw [hr] at h
    cases h
    exact runFrom_preserves_entries _ s c _ hr
  | error err =>
    rw [hr] at h
    cases h

/-- C4 witness: replaying the two-entry change log leaves the recorder's
entry log (here empty) unchanged. -/
theorem stepUntil_preserves_entries_witness : regStateAfter.entries = regState.entries :=
  stepUntil_preserves_entries regState cidLog 25 0 regStateAfter 2
    (by rw [stepUntil_eq_runFrom cidLog 25 cidLog.length regState 0 (by omega)]; rfl)

/-- C5: the cursor `stepUntil` returns is never below the input cursor, and
re-running `stepUntil` with the same target time from the returned cursor
applies zero entries and returns the same state and cursor. -/
theorem stepUntil_monotone_idempotent (s : Log) (la : List LogEntryRec) (t : Int) (c : Nat)
    (s' : Log) (c' : Nat) (h : stepUntil s la t c = .ok (s', c')) :
    c ≤ c' ∧ stepUntil s' la t c' = .ok (s', c') := by
  rw [stepUntil_eq_runFrom la t la.length s c (by omega)] at h
  cases hr : runFrom s c (window la t c) with
  | error err =>
    rw [hr] at h
    cases h
  | ok s1 =>
    rw [hr] at h
    cases h
    refine ⟨by omega, ?_⟩
    rw [stepUntil_eq_runFrom la t la.length _ (c + (window la t c).length) (by omega),
      window_after la t c]
    simp [runFrom]

/-- C5 witness: at cursor 0 the replay of the two-entry log returns cursor
2, and re-running from cursor 2 with the same target returns it unchanged. -/
theorem stepUntil_monotone_idempotent_witness :
    0 ≤ 2 ∧ stepUntil regStateAfter cidLog 25 2 = .ok (regStateAfter, 2) :=
  stepUntil_monotone_idempotent regState cidLog 25 0 regStateAfter 2
    (by rw [stepUntil_eq_runFrom cidLog 25 cidLog.length regState 0 (by omega)]; rfl)

/-- C7: a due `change` entry whose `value` field is absent is skipped
without touching any property, a `'missing value for index: '` diagnostic
is emitted with the loop index, nothing is thrown, and the scan advances
past the entry and continues with the rest of the log. -/
theorem change_missing_value_skipped (s : Log) (la : List LogEntryRec) (t : Int) (c : Nat)
    (e : LogEntryRec) (hc : la[c]? = some e) (ha : e.action = some "change")
    (hv : e.value = none) (ht : e.time ≤ t) :
    applyEntry s c e =
      .ok { s with diagnostics := s.diagnostics ++ [("missing value for index: ", c)] } ∧
    ({ s with diagnostics := s.diagnostics ++ [("missing value for index: ", c)] } : Log).properties
      = s.properties ∧
    stepUntil s la t c =
      stepUntil { s with diagnostics := s.diagnostics ++ [("missing value for index: ", c)] }
        la t (c + 1) := by
  have happ : applyEntry s c e =
      .ok { s with diagnostics := s.diagnostics ++ [("missing value for index: ", c)] } := by
    unfold applyEntry
    rw [if_pos ha, hv]
  refine ⟨happ, rfl, ?_⟩
  rw [stepUntil]
  split
  · rename_i heq
    rw [hc] at heq
    cases heq
  · rename_i entry heq
    rw [hc] at heq
    injection heq with hee
    subst hee
    rw [if_pos ht, happ]

/-- C7 witness: a one-entry log with a valueless `change` entry replays to
a diagnostic and an otherwise untouched recorder. -/
theorem change_missing_value_skipped_witness :
    applyEntry regState 0 { time := 3, action := some "change" } =
      .ok { regState with diagnostics :=
        regState.diagnostics ++ [("missing value for index: ", 0)] } :=
  (change_missing_value_skipped regState [{ time := 3, action := some "change" }] 9 0
    { time := 3, action := some "change" } rfl rfl rfl (by decide)).1

/-- C8: a due entry whose action is none of `change`, `trigger`, `add`,
`remove`, `reset`, `sort` falls through every dispatch branch: the state is
returned untouched, nothing is thrown, and the cursor still advances past
the entry so later entries are processed normally. -/
theorem unknown_action_ignored (s : Log) (la : List LogEntryRec) (t : Int) (c : Nat)
    (e : LogEntryRec) (hc : la[c]? = some e)
    (ha : e.action ∉ ([some "change", some "trigger", some "add", some "remove",
      some "reset", some "sort"] : List (Option String)))
    (ht : e.time ≤ t) :
    applyEntry s c e = .ok s ∧ stepUntil s la t c = stepUntil s la t (c + 1) := by
  obtain ⟨h1, h2, h3, h4, h5, h6⟩ :
      e.action ≠ some "change" ∧ e.action ≠ some "trigger" ∧ e.action ≠ some "add" ∧
      e.action ≠ some "remove" ∧ e.action ≠ some "reset" ∧ e.action ≠ some "sort" := by
    simpa using ha
  have happ : applyEntry s c e = .ok s := by
    unfold applyEntry
    rw [if_neg h1, if_neg h2, if_neg h3, if_neg h4, if_neg h5, if_neg h6]
  refine ⟨happ, ?_⟩
  rw [stepUntil]
  split
  · rename_i heq
    rw [hc] at heq
    cases heq
  · rename_i entry heq
    rw [hc] at heq
    injection heq with hee
    subst hee
    rw [if_pos ht, happ]

/-- C8 witness: an entry with the unrecognized action `noop` leaves the
recorder untouched when applied. -/
theorem unknown_action_ignored_witness :
    applyEntry regState 0 { time := 3, action := some "noop" } = .ok regState :=
  (unknown_action_ignored regState [{ time := 3, action := some "noop" }] 9 0
    { time := 3, action := some "noop" } rfl (by decide) (by decide)).1

/-- C1: the spec's record-then-replay scenario.  Recording produces exactly
the two claimed change entries (carrying the `index` field written by the
recorder's listener), but replaying that very log throws: `stepUntil` reads
`entry.cid`, which recorded entries do not carry, so the property lookup is
`properties[undefined]` and the value assignment is a `TypeError` — neither
call returns the claimed cursor or updates the property. -/
theorem record_then_replay_scenario :
    logState3.entries =
      [{ time := 10, type := some "property", index := some 0,
         action := some "change", value := some (.num 2) },
       { time := 20, type := some "property", index := some 0,
         action := some "change", value := some (.num 3) }] ∧
    stepUntil logState3 logState3.entries 15 0 =
      .error (.typeError "cannot set properties of undefined") ∧
    stepUntil logState3 logState3.entries 20 1 =
      .error (.typeError "cannot set properties of undefined") := by
  refine ⟨rfl, ?_, ?_⟩
  · rw [stepUntil_eq_runFrom logState3.entries 15 logState3.entries.length logState3 0
      (by omega)]
    rfl
  · rw [stepUntil_eq_runFrom logState3.entries 20 logState3.entries.length logState3 1
      (by omega)]
    rfl

/-- A populated session: one registered property, one collection with a
member, one property set, one logged entry. -/
def sess : Log :=
  { enabled := true, properties := [propP], collections := [[propP]],
    propertySets := [propP], entries := [{ time := 1 }] }

/-- C2: `clear()` empties `properties` and `propertySets`, but — because
the source assigns the misspelled `this.collection` — the `collections`
registry keeps its contents, the `entries` log is not reset at all, and a
fresh, otherwise unused `collection` field appears holding `[]`. -/
theorem clear_leaves_collections_and_entries :
    (clear sess).properties = [] ∧
    (clear sess).propertySets = [] ∧
    (clear sess).collections = [[propP]] ∧
    (clear sess).entries = [{ time := 1 }] ∧
    (clear sess).collection = some [] :=
  ⟨rfl, rfl, rfl, rfl, rfl⟩

/-- A plain scalar in the JS sense: `null`, a boolean, a number or a
string. -/
def isScalar : JsValue → Bool
  | .null => true
  | .bool _ => true
  | .num _ => true
  | .str _ => true
  | _ => false

/-- The live property at registry slot 0 whose `cid` field is `0` — the
first id of the 0-based registry. -/
def propZero : JsValue := .obj (some 0) "Property" [("cid", .num 0), ("value", .num 1)]

/-- C6 counterexample: for the property registered at slot 0 with
`cid = 0`, the replacer's truthiness test on `value.cid` fails, so the
round trip returns a freshly built structural copy — not the identical
live object. -/
theorem jsonRoundTrip_cid_zero_copy :
    jsonRoundTrip [propZero] 4 propZero =
      some (.obj none "Object" [("cid", .num 0), ("value", .num 1)]) ∧
    JsValue.obj none "Object" [("cid", .num 0), ("value", .num 1)] ≠ propZero :=
  ⟨rfl, ne_of_beqVal_false rfl⟩

/-- C6 (amended): round-tripping a value through
`JSON.parse(JSON.stringify(v, replacer), reviver)` over a fixed registry
returns plain scalars and strings unchanged, and returns the identical
live registry object for a property registered at the slot its `cid`
names, provided that `cid` is nonzero (the `cid = 0` case falls through
the replacer's truthiness test and yields only a structural copy). -/
theorem jsonRoundTrip_scalar_and_registered :
    (∀ (props : List JsValue) (fuel : Nat) (v : JsValue), isScalar v = true →
      jsonRoundTrip props (fuel + 1) v = some v) ∧
    (∀ (props : List JsValue) (fuel : Nat) (v : JsValue) (n : Int),
      getField v "cid" = .num n → n ≠ 0 → 0 ≤ n → props[n.toNat]? = some v →
      jsonRoundTrip props (fuel + 2) v = some v) := by
  constructor
  · intro props fuel v hv
    cases v with
    | null => simp [jsonRoundTrip, serializeVal, replacer, truthy, getField, internalize, reviver]
    | bool b =>
      simp [jsonRoundTrip, serializeVal, replacer, truthy, getField, ctorName,
        internalize, reviver]
    | num n =>
      simp [jsonRoundTrip, serializeVal, replacer, truthy, getField, ctorName,
        internalize, reviver]
    | str s =>
      simp [jsonRoundTrip, serializeVal, replacer, truthy, getField, ctorName,
        internalize, reviver]
    | undefined => simp [isScalar] at hv
    | obj i c fs => simp [isScalar] at hv
  · intro props fuel v n hcid hn hnn hreg
    have hb : (n != 0) = true := by simp [hn]
    cases v with
    | obj i c fs =>
      simp only [getField] at hcid
      have hrep : replacer "" (.obj i c fs) =
          .obj none "Object" [("jsonClass", .str "Property"), ("cid", .num n)] := by
        simp [replacer, truthy, getField, hcid, hb]
      have hser : serializeVal replacer (fuel + 2) "" (.obj i c fs) =
          some (.obj none "Object" [("jsonClass", .str "Property"), ("cid", .num n)]) := by
        rw [serializeVal, hrep]
        simp [serializeVal, replacer, truthy, getField, ctorName, hb]
      have hnotlt : ¬ n < 0 := by omega
      have hPP : (JsValue.str "Property" == JsValue.str "Property") = true := by rfl
      have hPV : (JsValue.str "Property" == JsValue.str "Vector2") = false := by rfl
      simp [jsonRoundTrip, hser, internalize, internalizeFields, isUndefined, reviver, truthy,
        getField, getFieldList, lookupByCid, hnotlt, hreg, hPP, hPV]
    | null => exact absurd hcid (by simp [getField])
    | undefined => exact absurd hcid (by simp [getField])
    | bool b => exact absurd hcid (by simp [getField])
    | num m => exact absurd hcid (by simp [getField])
    | str s => exact absurd hcid (by simp [getField])

/-- C6 witness: the scalar `7` round-trips to itself over an empty
registry, and the live property with `cid = 1` registered at slot 1
round-trips to itself (the identical registry entry). -/
theorem jsonRoundTrip_scalar_and_registered_witness :
    jsonRoundTrip [] 1 (.num 7) = some (.num 7) ∧
    jsonRoundTrip [.undefined, .obj (some 4) "Property" [("cid", .num 1)]] 2
        (.obj (some 4) "Property" [("cid", .num 1)]) =
      some (.obj (some 4) "Property" [("cid", .num 1)]) :=
  ⟨jsonRoundTrip_scalar_and_registered.1 [] 0 (.num 7) rfl,
   jsonRoundTrip_scalar_and_registered.2 [.undefined, .obj (some 4) "Property" [("cid", .num 1)]]
     0 (.obj (some 4) "Property" [("cid", .num 1)]) 1 rfl (by decide) (by decide) rfl⟩

/-- C10: an object whose `cid` field is `0` is falsy under the replacer's
`value && value.cid` test, so the replacer returns it unchanged — not as
the typed reference — and serialization descends structurally into its
fields like any ordinary (non-`Vector2`) object. -/
theorem replacer_cid_zero_structural (k : String) (i : Option Nat) (c : String)
    (fs : List (String × JsValue)) (hcid : getFieldList fs "cid" = .num 0)
    (hc : c ≠ "Vector2") :
    replacer k (.obj i c fs) = .obj i c fs ∧
    ∀ fuel : Nat, serializeVal replacer (fuel + 1) k (.obj i c fs) =
      some (.obj none "Object"
        (fs.foldr (fun kx acc =>
          match serializeVal replacer fuel kx.1 kx.2 with
          | none => acc
          | some y => (kx.1, y) :: acc) [])) := by
  have hrep : replacer k (.obj i c fs) = .obj i c fs := by
    simp [replacer, truthy, getField, hcid, ctorName, hc]
  refine ⟨hrep, fun fuel => ?_⟩
  rw [serializeVal, hrep]

/-- C10 witness: the concrete object `{cid: 0}` passes through the
replacer unchanged. -/
theorem replacer_cid_zero_structural_witness :
    replacer "" (.obj (some 0) "Property" [("cid", .num 0)]) =
      .obj (some 0) "Property" [("cid", .num 0)] :=
  (replacer_cid_zero_structural "" (some 0) "Property" [("cid", .num 0)]
    rfl (by decide)).1

/-! ### NumberPropertyIO field lemmas -/

theorem getField_setThree_ne (b src : JsValue) (k : String)
    (h1 : k ≠ "valueType") (h2 : k ≠ "units") (h3 : k ≠ "range") :
    getField (setField (setField (setField b "valueType" (getField src "valueType"))
        "units" (getField src "units")) "range" (getField src "range")) k
      = getField b k := by
  rw [getField_setField_ne _ _ _ _ h3, getField_setField_ne _ _ _ _ h2,
    getField_setField_ne _ _ _ _ h1]

theorem getField_setThree_valueType (b src : JsValue) (hb : isObj b = true) :
    getField (setField (setField (setField b "valueType" (getField src "valueType"))
        "units" (getField src "units")) "range" (getField src "range")) "valueType"
      = getField src "valueType" := by
  rw [getField_setField_ne _ _ _ _ (by decide), getField_setField_ne _ _ _ _ (by decide),
    getField_setField_same _ _ _ hb]

theorem getField_setThree_units (b src : JsValue) (hb : isObj b = true) :
    getField (setField (setField (setField b "valueType" (getField src "valueType"))
        "units" (getField src "units")) "range" (getField src "range")) "units"
      = getField src "units" := by
  rw [getField_setField_ne _ _ _ _ (by decide),
    getField_setField_same _ _ _ (by rw [isObj_setField]; exact hb)]

theorem getField_setThree_range (b src : JsValue) (hb : isObj b = true) :
    getField (setField (setField (setField b "valueType" (getField src "valueType"))
        "units" (getField src "units")) "range" (getField src "range")) "range"
      = getField src "range" := by
  rw [getField_setField_same _ _ _ (by rw [isObj_setField, isObj_setField]; exact hb)]

/-- C9: `NumberPropertyIO`'s adapters forward to the parent adapter and
copy exactly the three extra fields `valueType`, `units`, `range`:
`toStateObject` agrees with the parent's state object on every other key
and carries the property's three fields; `fromStateObject` agrees with the
parent's decoded object on every other key and carries the state object's
three fields; consequently `fromStateObject (toStateObject p)` preserves
the three fields of `p` (here proved outright, so in particular whenever
the parent round-trip preserves them). -/
theorem numberPropertyIO_forwards_and_preserves
    (parentTo parentFrom : JsValue → JsValue) (p s0 : JsValue)
    (hto : isObj (parentTo p) = true)
    (hfrom : isObj (parentFrom s0) = true)
    (hfromRT : isObj (parentFrom (NumberPropertyIOModel.toStateObject parentTo p)) = true) :
    (∀ k : String, k ≠ "valueType" → k ≠ "units" → k ≠ "range" →
      getField (NumberPropertyIOModel.toStateObject parentTo p) k = getField (parentTo p) k) ∧
    getField (NumberPropertyIOModel.toStateObject parentTo p) "valueType" = getField p "valueType" ∧
    getField (NumberPropertyIOModel.toStateObject parentTo p) "units" = getField p "units" ∧
    getField (NumberPropertyIOModel.toStateObject parentTo p) "range" = getField p "range" ∧
    (∀ k : String, k ≠ "valueType" → k ≠ "units" → k ≠ "range" →
      getField (NumberPropertyIOModel.fromStateObject parentFrom s0) k
        = getField (parentFrom s0) k) ∧
    getField (NumberPropertyIOModel.fromStateObject parentFrom s0) "valueType"
      = getField s0 "valueType" ∧
    getField (NumberPropertyIOModel.fromStateObject parentFrom s0) "units" = getField s0 "units" ∧
    getField (NumberPropertyIOModel.fromStateObject parentFrom s0) "range" = getField s0 "range" ∧
    getField (NumberPropertyIOModel.fromStateObject parentFrom
      (NumberPropertyIOModel.toStateObject parentTo p)) "valueType" = getField p "valueType" ∧
    getField (NumberPropertyIOModel.fromStateObject parentFrom
      (NumberPropertyIOModel.toStateObject parentTo p)) "units" = getField p "units" ∧
    getField (NumberPropertyIOModel.fromStateObject parentFrom
      (NumberPropertyIOModel.toStateObject parentTo p)) "range" = getField p "range" := by
  refine ⟨fun k h1 h2 h3 => getField_setThree_ne _ _ _ h1 h2 h3,
    getField_setThree_valueType _ _ hto,
    getField_setThree_units _ _ hto,
    getField_setThree_range _ _ hto,
    fun k h1 h2 h3 => getField_setThree_ne _ _ _ h1 h2 h3,
    getField_setThree_valueType _ _ hfrom,
    getField_setThree_units _ _ hfrom,
    getField_setThree_range _ _ hfrom,
    ?_, ?_, ?_⟩
  · rw [show NumberPropertyIOModel.fromStateObject parentFrom
        (NumberPropertyIOModel.toStateObject parentTo p) =
      setField (setField (setField (parentFrom (NumberPropertyIOModel.toStateObject parentTo p))
        "valueType" (getField (NumberPropertyIOModel.toStateObject parentTo p) "valueType"))
        "units" (getField (NumberPropertyIOModel.toStateObject parentTo p) "units"))
        "range" (getField (NumberPropertyIOModel.toStateObject parentTo p) "range") from rfl]
    rw [getField_setThree_valueType _ _ hfromRT]
    exact getField_setThree_valueType _ _ hto
  · rw [show NumberPropertyIOModel.fromStateObject parentFrom
        (NumberPropertyIOModel.toStateObject parentTo p) =
      setField (setField (setField (parentFrom (NumberPropertyIOModel.toStateObject parentTo p))
        "valueType" (getField (NumberPropertyIOModel.toStateObject parentTo p) "valueType"))
        "units" (getField (NumberPropertyIOModel.toStateObject parentTo p) "units"))
        "range" (getField (NumberPropertyIOModel.toStateObject parentTo p) "range") from rfl]
    rw [getField_setThree_units _ _ hfromRT]
    exact getField_setThree_units _ _ hto
  · rw [show NumberPropertyIOModel.fromStateObject parentFrom
        (NumberPropertyIOModel.toStateObject parentTo p) =
      setField (setField (setField (parentFrom (NumberPropertyIOModel.toStateObject parentTo p))
        "valueType" (getField (NumberPropertyIOModel.toStateObject parentTo p) "valueType"))
        "units" (getField (NumberPropertyIOModel.toStateObject parentTo p) "units"))
        "range" (getField (NumberPropertyIOModel.toStateObject parentTo p) "range") from rfl]
    rw [getField_setThree_range _ _ hfromRT]
    exact getField_setThree_range _ _ hto

/-- C9 witness: with the identity as parent adapter and a concrete number
property, the adapter's state object carries the property's `valueType`. -/
theorem numberPropertyIO_forwards_and_preserves_witness :
    getField (NumberPropertyIOModel.toStateObject id
        (.obj none "NumberProperty"
          [("valueType", .str "number"), ("units", .str "m"), ("range", .null),
           ("value", .num 2)])) "valueType" = .str "number" :=
  (numberPropertyIO_forwards_and_preserves id id
    (.obj none "NumberProperty"
      [("valueType", .str "number"), ("units", .str "m"), ("range", .null),
       ("value", .num 2)])
    (.obj none "StateObject" [("valueType", .str "number")])
    rfl rfl rfl).2.1

end Axon
